import Mathlib

/-!
# Verification of the FDA PDF batch downloader (`src/app.py`)

Shallow embedding of the two functions of `src/app.py`:

* `download_pdf` (the Fetcher): normalizes a K-number identifier, derives the
  request URL and the output file path, performs one HTTP GET and streams the
  body to disk, returning a `(k_number, success, filepath-or-error)` triple.
  Only `requests.exceptions.RequestException` is caught; any other exception
  (for instance an `OSError` raised by `open`/`write`) escapes.
* `download_fda_pdfs` (the Batch Coordinator): creates the output directory,
  submits one fetch per identifier to a thread pool, drains the futures in
  the order they were inserted into the `future_to_k` dict (which is the
  submission order), and partitions the outcomes into `successful`/`failed`.

Strings are embedded as `List Char`.  The I/O effects of one fetch are made
explicit as a `FetchEvent` oracle: the outcome of the single HTTP request
(`NetEvent`) and of the file write (`FsEvent`); the coordinator receives one
event per invocation, indexed by submission position, so duplicate
identifiers have independent events.  Network requests and the filesystem
directory state are threaded as explicit data so that side effects become
part of the returned value.
-/

/-! ## Identifier normalization (`src/app.py` lines 20–22) -/

/-- Leading-whitespace strip: the front half of Python `str.strip()`. -/
def stripLeadingWs (l : List Char) : List Char :=
  l.dropWhile Char.isWhitespace

/-- Trailing-whitespace strip: the back half of Python `str.strip()`. -/
def stripTrailingWs (l : List Char) : List Char :=
  (l.reverse.dropWhile Char.isWhitespace).reverse

/-- Python `str.strip()` with no argument: remove leading and trailing
whitespace.  Whitespace is modelled by `Char.isWhitespace`. -/
def pyStrip (l : List Char) : List Char :=
  stripTrailingWs (stripLeadingWs l)

/-- Python `str.upper()` on the ASCII identifiers the program handles:
uppercase every character. -/
def pyUpper (l : List Char) : List Char :=
  l.map Char.toUpper

/-- Python `s.startswith("K")`: the first character is `K`. -/
def startsWithK : List Char → Bool
  | [] => false
  | c :: _ => c == 'K'

/-- Lines 20–22 of `download_pdf`: `k_number.strip().upper()`, then prepend
`K` when the result does not start with `K`. -/
def normalizeK (k_number : List Char) : List Char :=
  let t := pyUpper (pyStrip k_number)
  if startsWithK t then t else 'K' :: t

/-- Modelled from the spec: normalization as §4.1 words it — strip
leading/trailing whitespace, uppercase, and prepend the fixed prefix letter
exactly when the uppercased string does not already begin with it.  Stated
with `List.isPrefixOf` so that it can be compared with `normalizeK`, which
follows the code. -/
def normalizeSpec (s : List Char) : List Char :=
  let t := pyUpper (pyStrip s)
  if ['K'].isPrefixOf t then t else 'K' :: t

/-! ## URL and path construction (`src/app.py` lines 24–28) -/

/-- Line 25: `k_number[1:3]`, the two characters after the prefix letter
(Python slicing is total: shorter strings give shorter slices). -/
def yearOf (k : List Char) : List Char :=
  (k.drop 1).take 2

/-- The relative path `pdf<year>/<k_number>.pdf` passed to `urljoin`. -/
def relPath (k : List Char) : List Char :=
  "pdf".toList ++ yearOf k ++ "/".toList ++ k ++ ".pdf".toList

/-- Models `urllib.parse.urljoin` in the only case the code exercises: a
base URL joined with a plain relative path (no scheme, no leading slash, no
dot segments).  Resolution keeps the base up to and including its last
slash and appends the relative path. -/
def urljoin (base rel : List Char) : List Char :=
  (base.reverse.dropWhile (fun c => !(c == '/'))).reverse ++ rel

/-- Line 26: the full request URL. -/
def buildURL (base_url k : List Char) : List Char :=
  urljoin base_url (relPath k)

/-- Models POSIX `os.path.join` for two components. -/
def pathJoin (dir file : List Char) : List Char :=
  if file.head? = some '/' then file
  else if dir = [] then file
  else if dir.getLast? = some '/' then dir ++ file
  else dir ++ '/' :: file

/-- Line 28: `os.path.join(output_dir, k_number + ".pdf")`. -/
def outputPathOf (output_dir k : List Char) : List Char :=
  pathJoin output_dir (k ++ ".pdf".toList)

/-! ## The Fetcher (`download_pdf`, lines 7–41) -/

/-- What the single `requests.get` (with `raise_for_status` and the
streaming read) did in one invocation.  All three constructors of interest
to the `except` clause: a successful 2xx/3xx response whose body streams
fully, a non-success status (`raise_for_status` raises `HTTPError`, a
`RequestException`), or any other `RequestException` (DNS, connect,
timeout, mid-stream read). -/
inductive NetEvent where
  | ok : NetEvent
  | httpError : List Char → NetEvent
  | netError : List Char → NetEvent
deriving DecidableEq

/-- What the `open`/`write` of the output file did: succeeded, or raised an
`OSError` (which is not a `RequestException`). -/
inductive FsEvent where
  | ok : FsEvent
  | writeError : List Char → FsEvent
deriving DecidableEq

/-- The I/O oracle for one Fetcher invocation. -/
structure FetchEvent where
  net : NetEvent
  fs : FsEvent
deriving DecidableEq

/-- The `(k_number, success, filepath-or-error)` triple the code returns. -/
abbrev Outcome := List Char × Bool × List Char

/-- `download_pdf` (lines 7–41).  The first component is the returned triple
when the function returns, or `Except.error` when an exception escapes the
`try` block: only `requests.exceptions.RequestException` is caught, so a
network-layer failure (connect error, timeout, non-success HTTP status,
mid-stream read error) becomes a `(k, false, message)` triple, while an
`OSError` from `open`/`write` — which can only be reached once the request
itself succeeded — propagates to the caller.  The second component is the
list of URLs requested over the network (always exactly the one GET). -/
def download_pdf (ev : FetchEvent) (k_number base_url output_dir : List Char) :
    Except (List Char) Outcome × List (List Char) :=
  let k := normalizeK k_number
  let url := buildURL base_url k
  let output_path := outputPathOf output_dir k
  let result : Except (List Char) Outcome :=
    match ev.net with
    | NetEvent.netError m => Except.ok (k, false, m)
    | NetEvent.httpError m => Except.ok (k, false, m)
    | NetEvent.ok =>
      match ev.fs with
      | FsEvent.ok => Except.ok (k, true, output_path)
      | FsEvent.writeError m => Except.error m
  (result, [url])

/-! ## Directory creation (`os.makedirs(output_dir, exist_ok=True)`, line 59) -/

/-- The directories `os.makedirs p` brings into existence: every proper
prefix of `p` that ends just before a slash, and `p` itself. -/
def ancestors (p : List Char) : List (List Char) :=
  ((List.range p.length).filterMap
    (fun i => if p[i]? = some '/' then some (p.take i) else none)) ++ [p]

/-- `os.makedirs(p, exist_ok=True)` on a filesystem modelled as the list of
existing directories: add every missing ancestor of `p` (idempotent, never
raises when the directory already exists). -/
def makedirs (fs : List (List Char)) (p : List Char) : List (List Char) :=
  fs ++ (ancestors p).filter (fun d => !(fs.contains d))

/-! ## The Batch Coordinator (`download_fda_pdfs`, lines 44–81) -/

/-- The `results` dict: `successful` holds `(k_number, filepath)` entries,
`failed` holds `(k_number, error)` entries. -/
structure Report where
  successful : List (List Char × List Char)
  failed : List (List Char × List Char)
deriving DecidableEq

/-- Lines 64–67: submit one `download_pdf` task per element of `k_numbers`.
Invocation `i` consumes event `w i`; the list is in submission order,
which is also the insertion order of the `future_to_k` dict (each
`executor.submit` call returns a fresh future, so duplicates get distinct
dict keys). -/
def runFetches (w : Nat → FetchEvent) (base_url output_dir : List Char) :
    Nat → List (List Char) → List (Except (List Char) Outcome × List (List Char))
  | _, [] => []
  | i, k :: ks =>
    download_pdf (w i) k base_url output_dir ::
      runFetches w base_url output_dir (i + 1) ks

/-- Lines 69–74: iterate the futures in dict insertion order (= submission
order), calling `future.result()` on each; a triple with `success = True`
is appended to `successful`, one with `success = False` to `failed`, and a
future whose task raised re-raises that exception out of the loop. -/
def collectOutcomes : List (Except (List Char) Outcome) → Except (List Char) Report
  | [] => Except.ok ⟨[], []⟩
  | Except.error e :: _ => Except.error e
  | Except.ok (k, success, res) :: rest =>
    match collectOutcomes rest with
    | Except.error e => Except.error e
    | Except.ok r =>
      Except.ok (if success then ⟨(k, res) :: r.successful, r.failed⟩
                 else ⟨r.successful, (k, res) :: r.failed⟩)

/-- Line 56: the fixed base URL. -/
def baseURL : List Char := "https://www.accessdata.fda.gov/cdrh_docs/".toList

/-- `download_fda_pdfs` (lines 44–81).  Returns the report (or the
exception that escaped result collection), the directories existing after
the call (the filesystem state is threaded explicitly, starting from
`fs0`), and the URLs requested over the network.  The thread-pool bound
`max_workers` does not influence which outcomes are produced — every
submitted task runs to completion and outcomes are drained in submission
order — so it does not appear in the model. -/
def download_fda_pdfs (w : Nat → FetchEvent) (k_numbers : List (List Char))
    (output_dir : List Char) (fs0 : List (List Char)) :
    Except (List Char) Report × List (List Char) × List (List Char) :=
  let base_url := baseURL
  let fs1 := makedirs fs0 output_dir
  let runs := runFetches w base_url output_dir 0 k_numbers
  (collectOutcomes (runs.map Prod.fst), fs1, (runs.map Prod.snd).flatten)

/-! ## Spec-side comparison definitions -/

/-- The success entries among a list of fetch results, in the order given. -/
def successesIn (os : List (Except (List Char) Outcome)) :
    List (List Char × List Char) :=
  os.filterMap (fun o =>
    match o with
    | Except.ok (k, true, p) => some (k, p)
    | _ => none)

/-- The failure entries among a list of fetch results, in the order given. -/
def failuresIn (os : List (Except (List Char) Outcome)) :
    List (List Char × List Char) :=
  os.filterMap (fun o =>
    match o with
    | Except.ok (k, false, m) => some (k, m)
    | _ => none)

/-- Modelled from the spec: reading a list of per-invocation results in the
completion order `sched` (the list of invocation indices in the order the
pool finished them), as §3's "order of entries reflects completion order"
requires. -/
def completionOrderList (sched : List Nat)
    (os : List (Except (List Char) Outcome)) : List (Except (List Char) Outcome) :=
  sched.filterMap (fun i => os[i]?)

/-! ## Concrete worlds and batches used to instantiate the theorems -/

/-- A world in which invocation 0 succeeds fully and every later invocation
gets a non-success HTTP response. -/
def wMixed : Nat → FetchEvent := fun i =>
  if i = 0 then ⟨NetEvent.ok, FsEvent.ok⟩
  else ⟨NetEvent.httpError "404 Client Error".toList, FsEvent.ok⟩

/-- The report `wMixed` produces on the batch of `K241380` and `badid`. -/
def rMixed : Report :=
  ⟨[("K241380".toList, "fda_pdfs/K241380.pdf".toList)],
   [("KBADID".toList, "404 Client Error".toList)]⟩

/-- A world in which invocation 0 succeeds and every later invocation hits a
connection timeout (a `RequestException`). -/
def wDup : Nat → FetchEvent := fun i =>
  if i = 0 then ⟨NetEvent.ok, FsEvent.ok⟩
  else ⟨NetEvent.netError "timeout".toList, FsEvent.ok⟩

/-- The report `wDup` produces on a batch of two copies of `K241380`. -/
def rDup : Report :=
  ⟨[("K241380".toList, "fda_pdfs/K241380.pdf".toList)],
   [("K241380".toList, "timeout".toList)]⟩

/-- A world in which every invocation succeeds fully. -/
def wAllOk : Nat → FetchEvent := fun _ => ⟨NetEvent.ok, FsEvent.ok⟩

/-- A two-identifier batch with distinct identifiers. -/
def ksPair : List (List Char) := ["K111111".toList, "K222222".toList]

/-! ## Character-level facts about `Char.toUpper` and `Char.isWhitespace` -/

theorem toNat_ofNat_lt {n : Nat} (h : n < 55296) : (Char.ofNat n).toNat = n := by
  rw [Char.ofNat, dif_pos (Or.inl h)]
  rfl

theorem char_eq_iff_toNat {c d : Char} : c = d ↔ c.toNat = d.toNat :=
  ⟨fun h => h ▸ rfl, fun h => by rw [← Char.ofNat_toNat c, h, Char.ofNat_toNat]⟩

theorem toUpper_toNat_of_lower {c : Char} (h1 : 97 ≤ c.toNat) (h2 : c.toNat ≤ 122) :
    (Char.toUpper c).toNat = c.toNat - 32 := by
  unfold Char.toUpper
  rw [if_pos ⟨h1, h2⟩]
  exact toNat_ofNat_lt (by omega)

theorem toUpper_eq_of_not_lower {c : Char} (h : ¬(97 ≤ c.toNat ∧ c.toNat ≤ 122)) :
    Char.toUpper c = c := by
  unfold Char.toUpper
  rw [if_neg h]

theorem isWhitespace_eq_false_of_ge {c : Char} (h : 33 ≤ c.toNat) :
    c.isWhitespace = false := by
  cases hw : c.isWhitespace with
  | false => rfl
  | true =>
    exfalso
    unfold Char.isWhitespace at hw
    simp only [Bool.or_eq_true, decide_eq_true_eq, char_eq_iff_toNat,
      show (' ' : Char).toNat = 32 from rfl, show ('\t' : Char).toNat = 9 from rfl,
      show ('\r' : Char).toNat = 13 from rfl, show ('\n' : Char).toNat = 10 from rfl] at hw
    omega

theorem isWhitespace_toUpper (c : Char) :
    (Char.toUpper c).isWhitespace = c.isWhitespace := by
  by_cases h : 97 ≤ c.toNat ∧ c.toNat ≤ 122
  · have ht := toUpper_toNat_of_lower h.1 h.2
    rw [isWhitespace_eq_false_of_ge (by omega),
        isWhitespace_eq_false_of_ge (c := c) (by omega)]
  · rw [toUpper_eq_of_not_lower h]

theorem toUpper_toUpper (c : Char) :
    Char.toUpper (Char.toUpper c) = Char.toUpper c := by
  by_cases h : 97 ≤ c.toNat ∧ c.toNat ≤ 122
  · have ht := toUpper_toNat_of_lower h.1 h.2
    exact toUpper_eq_of_not_lower (by omega)
  · rw [toUpper_eq_of_not_lower h, toUpper_eq_of_not_lower h]

/-! ## Normalization: fixed points and idempotence -/

theorem stripTrailingWs_eq_rdropWhile (l : List Char) :
    stripTrailingWs l = l.rdropWhile Char.isWhitespace := rfl

theorem stripTrailingWs_idem (l : List Char) :
    stripTrailingWs (stripTrailingWs l) = stripTrailingWs l := by
  simp [stripTrailingWs_eq_rdropWhile, List.rdropWhile_idempotent]

theorem pyStrip_trailing_fixed (l : List Char) :
    stripTrailingWs (pyStrip l) = pyStrip l := by
  unfold pyStrip
  exact stripTrailingWs_idem _

theorem ws_comp_toUpper : Char.isWhitespace ∘ Char.toUpper = Char.isWhitespace :=
  funext isWhitespace_toUpper

theorem dropWhile_ws_pyUpper (l : List Char) :
    (pyUpper l).dropWhile Char.isWhitespace
      = pyUpper (l.dropWhile Char.isWhitespace) := by
  unfold pyUpper
  rw [List.dropWhile_map, ws_comp_toUpper]

theorem stripTrailingWs_pyUpper (l : List Char) :
    stripTrailingWs (pyUpper l) = pyUpper (stripTrailingWs l) := by
  unfold stripTrailingWs pyUpper
  rw [← List.map_reverse, List.dropWhile_map, ws_comp_toUpper, List.map_reverse]

theorem pyUpper_pyUpper (l : List Char) : pyUpper (pyUpper l) = pyUpper l := by
  unfold pyUpper
  rw [List.map_map]
  exact List.map_congr_left (fun c _ => toUpper_toUpper c)

theorem stripTrailingWs_cons {c : Char} {l : List Char} (hc : c.isWhitespace = false)
    (hl : stripTrailingWs l = l) : stripTrailingWs (c :: l) = c :: l := by
  rw [stripTrailingWs_eq_rdropWhile] at hl ⊢
  rw [List.rdropWhile_eq_self_iff] at hl ⊢
  intro hne
  cases l with
  | nil => simp [hc]
  | cons x xs =>
    rw [List.getLast_cons_cons]
    exact hl (by simp)

theorem stripLeadingWs_cons {c : Char} (l : List Char) (hc : c.isWhitespace = false) :
    stripLeadingWs (c :: l) = c :: l := by
  unfold stripLeadingWs
  rw [List.dropWhile_cons_of_neg (by simp [hc])]

theorem startsWithK_eq_true {l : List Char} (h : startsWithK l = true) :
    ∃ t, l = 'K' :: t := by
  cases l with
  | nil => simp [startsWithK] at h
  | cons c t =>
    simp only [startsWithK, beq_iff_eq] at h
    exact ⟨t, by rw [h]⟩

theorem K_not_ws : ('K' : Char).isWhitespace = false := by decide

theorem normalizeK_trailing_fixed (s : List Char) :
    stripTrailingWs (pyUpper (pyStrip s)) = pyUpper (pyStrip s) := by
  rw [stripTrailingWs_pyUpper, pyStrip_trailing_fixed]

theorem pyStrip_fixed {l : List Char} (h1 : stripLeadingWs l = l)
    (h2 : stripTrailingWs l = l) : pyStrip l = l := by
  unfold pyStrip
  rw [h1, h2]

theorem pyStrip_normalizeK (s : List Char) : pyStrip (normalizeK s) = normalizeK s := by
  unfold normalizeK
  by_cases hk : startsWithK (pyUpper (pyStrip s)) = true
  · rw [if_pos hk]
    obtain ⟨t, ht⟩ := startsWithK_eq_true hk
    refine pyStrip_fixed ?_ (normalizeK_trailing_fixed s)
    rw [ht]
    exact stripLeadingWs_cons _ K_not_ws
  · rw [if_neg hk]
    exact pyStrip_fixed (stripLeadingWs_cons _ K_not_ws)
      (stripTrailingWs_cons K_not_ws (normalizeK_trailing_fixed s))

theorem toUpper_K : Char.toUpper 'K' = 'K' := by decide

theorem pyUpper_normalizeK (s : List Char) : pyUpper (normalizeK s) = normalizeK s := by
  unfold normalizeK
  by_cases hk : startsWithK (pyUpper (pyStrip s)) = true
  · rw [if_pos hk]
    exact pyUpper_pyUpper _
  · rw [if_neg hk]
    show Char.toUpper 'K' :: pyUpper (pyUpper (pyStrip s)) = _
    rw [toUpper_K, pyUpper_pyUpper]

theorem startsWithK_normalizeK (s : List Char) : startsWithK (normalizeK s) = true := by
  unfold normalizeK
  by_cases hk : startsWithK (pyUpper (pyStrip s)) = true
  · rw [if_pos hk]
    exact hk
  · rw [if_neg hk]
    rfl

theorem normalizeK_idem (s : List Char) : normalizeK (normalizeK s) = normalizeK s := by
  have h1 : pyUpper (pyStrip (normalizeK s)) = normalizeK s := by
    rw [pyStrip_normalizeK, pyUpper_normalizeK]
  show (let t := pyUpper (pyStrip (normalizeK s)); if startsWithK t then t else 'K' :: t)
      = normalizeK s
  simp only [h1, startsWithK_normalizeK, if_true]

theorem pyStrip_all_ws {s : List Char} (h : ∀ c ∈ s, c.isWhitespace = true) :
    pyStrip s = [] := by
  have h1 : stripLeadingWs s = [] := by
    unfold stripLeadingWs
    rw [List.dropWhile_eq_nil_iff]
    exact h
  unfold pyStrip
  rw [h1]
  rfl

theorem normalizeK_all_ws {s : List Char} (h : ∀ c ∈ s, c.isWhitespace = true) :
    normalizeK s = ['K'] := by
  unfold normalizeK
  rw [pyStrip_all_ws h]
  rfl

theorem startsWithK_eq_isPrefixOf (t : List Char) :
    startsWithK t = ['K'].isPrefixOf t := by
  cases t with
  | nil => rfl
  | cons c l => simp [startsWithK, List.isPrefixOf, Bool.and_true, eq_comm]

theorem normalizeK_eq_normalizeSpec (s : List Char) :
    normalizeK s = normalizeSpec s := by
  unfold normalizeK normalizeSpec
  simp only [startsWithK_eq_isPrefixOf]

/-! ## Outcome collection and dispatch -/

theorem collectOutcomes_cons_error (e : List Char) (rest : List (Except (List Char) Outcome)) :
    collectOutcomes (Except.error e :: rest) = Except.error e := rfl

theorem collectOutcomes_cons_ok (k : List Char) (success : Bool) (res : List Char)
    (rest : List (Except (List Char) Outcome)) :
    collectOutcomes (Except.ok (k, success, res) :: rest) =
      match collectOutcomes rest with
      | Except.error e => Except.error e
      | Except.ok r =>
        Except.ok (if success then ⟨(k, res) :: r.successful, r.failed⟩
                   else ⟨r.successful, (k, res) :: r.failed⟩) := rfl

theorem successesIn_cons_ok (k : List Char) (b : Bool) (res : List Char)
    (rest : List (Except (List Char) Outcome)) :
    successesIn (Except.ok (k, b, res) :: rest) =
      if b then (k, res) :: successesIn rest else successesIn rest := by
  cases b <;> rfl

theorem failuresIn_cons_ok (k : List Char) (b : Bool) (res : List Char)
    (rest : List (Except (List Char) Outcome)) :
    failuresIn (Except.ok (k, b, res) :: rest) =
      if b then failuresIn rest else (k, res) :: failuresIn rest := by
  cases b <;> rfl

theorem collectOutcomes_ok (os : List (Except (List Char) Outcome)) (r : Report)
    (h : collectOutcomes os = Except.ok r) :
    r.successful = successesIn os ∧ r.failed = failuresIn os ∧
      r.successful.length + r.failed.length = os.length := by
  induction os generalizing r with
  | nil =>
    simp only [collectOutcomes, Except.ok.injEq] at h
    subst h
    exact ⟨rfl, rfl, rfl⟩
  | cons o rest ih =>
    cases o with
    | error e => simp [collectOutcomes_cons_error] at h
    | ok triple =>
      obtain ⟨k, success, res⟩ := triple
      rw [collectOutcomes_cons_ok] at h
      cases hr : collectOutcomes rest with
      | error e => rw [hr] at h; simp at h
      | ok r' =>
        rw [hr] at h
        obtain ⟨h1, h2, h3⟩ := ih r' hr
        cases success with
        | true =>
          simp only [if_true, Except.ok.injEq] at h
          subst h
          refine ⟨?_, ?_, ?_⟩
          · rw [successesIn_cons_ok]
            simp [h1]
          · rw [failuresIn_cons_ok]
            simp [h2]
          · simp only [List.length_cons, List.length]
            omega
        | false =>
          simp only [Bool.false_eq_true, if_false, Except.ok.injEq] at h
          subst h
          refine ⟨?_, ?_, ?_⟩
          · rw [successesIn_cons_ok]
            simp [h1]
          · rw [failuresIn_cons_ok]
            simp [h2]
          · simp only [List.length_cons, List.length]
            omega

theorem runFetches_length (w : Nat → FetchEvent) (b o : List Char) :
    ∀ (i : Nat) (ks : List (List Char)), (runFetches w b o i ks).length = ks.length := by
  intro i ks
  induction ks generalizing i with
  | nil => rfl
  | cons k ks ih => simp [runFetches, ih]

theorem runFetches_eq_enumFrom (w : Nat → FetchEvent) (b o : List Char) :
    ∀ (i : Nat) (ks : List (List Char)),
      runFetches w b o i ks =
        (ks.enumFrom i).map (fun p => download_pdf (w p.1) p.2 b o) := by
  intro i ks
  induction ks generalizing i with
  | nil => rfl
  | cons k ks ih => simp [runFetches, ih]

theorem runFetches_requests (w : Nat → FetchEvent) (b o : List Char) :
    ∀ (i : Nat) (ks : List (List Char)),
      ((runFetches w b o i ks).map Prod.snd).flatten =
        ks.map (fun k => buildURL b (normalizeK k)) := by
  intro i ks
  induction ks generalizing i with
  | nil => rfl
  | cons k ks ih => simp [runFetches, ih]; rfl

/-! ## Directory creation facts -/

theorem mem_ancestors_self (p : List Char) : p ∈ ancestors p := by
  unfold ancestors
  exact List.mem_append_right _ (List.mem_singleton.mpr rfl)

theorem mem_makedirs_of_mem_ancestors {fs : List (List Char)} {p d : List Char}
    (hd : d ∈ ancestors p) : d ∈ makedirs fs p := by
  unfold makedirs
  by_cases hfs : d ∈ fs
  · exact List.mem_append_left _ hfs
  · refine List.mem_append_right _ ?_
    rw [List.mem_filter]
    refine ⟨hd, ?_⟩
    simp [List.contains, List.elem_eq_mem, hfs]

theorem mem_makedirs_self (fs : List (List Char)) (p : List Char) :
    p ∈ makedirs fs p :=
  mem_makedirs_of_mem_ancestors (mem_ancestors_self p)

theorem makedirs_idem (fs : List (List Char)) (p : List Char) :
    makedirs (makedirs fs p) p = makedirs fs p := by
  have hnil : (ancestors p).filter (fun d => !((makedirs fs p).contains d)) = [] := by
    rw [List.filter_eq_nil_iff]
    intro a ha
    simp [List.contains, List.elem_eq_mem, mem_makedirs_of_mem_ancestors ha]
  show makedirs fs p ++ (ancestors p).filter (fun d => !((makedirs fs p).contains d))
      = makedirs fs p
  rw [hnil, List.append_nil]

/-! ## Claims -/

/-- C1, counterexample: not every failure path of a fetch is converted to a
`Failure` outcome.  When the HTTP request succeeds but writing the file
raises an `OSError` (for instance a full disk), the exception escapes
`download_pdf`, because the `except` clause only catches
`requests.exceptions.RequestException`. -/
theorem claim1_counterexample :
    (download_pdf ⟨NetEvent.ok, FsEvent.writeError "disk full".toList⟩
      "K241380".toList baseURL "fda_pdfs".toList).1 =
      Except.error "disk full".toList := rfl

/-- C1 (amended): every network-layer failure of a single fetch — a
`RequestException` from the request itself or the non-success status raised
by `raise_for_status` — is captured inside the Fetcher and converted to a
`Failure` outcome and is never propagated as an exception; an exception
escapes the fetch exactly when the request succeeded and the filesystem
write raised. -/
theorem claim1_network_failures_captured (ev : FetchEvent)
    (k base out : List Char) :
    (∀ m, ev.net = NetEvent.netError m →
      (download_pdf ev k base out).1 = Except.ok (normalizeK k, false, m)) ∧
    (∀ m, ev.net = NetEvent.httpError m →
      (download_pdf ev k base out).1 = Except.ok (normalizeK k, false, m)) ∧
    (∀ e, (download_pdf ev k base out).1 = Except.error e ↔
      ev.net = NetEvent.ok ∧ ev.fs = FsEvent.writeError e) := by
  obtain ⟨net, fs⟩ := ev
  cases net <;> cases fs <;> simp [download_pdf, eq_comm]

/-- C1, witness: a connection timeout is returned as a `Failure` triple. -/
theorem claim1_witness :
    (download_pdf ⟨NetEvent.netError "timeout".toList, FsEvent.ok⟩
      "k1".toList baseURL "fda_pdfs".toList).1 =
      Except.ok (normalizeK "k1".toList, false, "timeout".toList) :=
  (claim1_network_failures_captured ⟨NetEvent.netError "timeout".toList, FsEvent.ok⟩
    "k1".toList baseURL "fda_pdfs".toList).1 "timeout".toList rfl

/-- C2: normalization strips leading/trailing whitespace, uppercases, and
prepends `K` exactly when the uppercased string does not already start with
`K`; in particular `241380` normalizes to `K241380` and ` k241380 ` (with
surrounding spaces) normalizes to `K241380`. -/
theorem claim2_normalization :
    (∀ s : List Char, normalizeK s = normalizeSpec s) ∧
    normalizeK "241380".toList = "K241380".toList ∧
    normalizeK " k241380 ".toList = "K241380".toList :=
  ⟨normalizeK_eq_normalizeSpec, by decide, by decide⟩

/-- C3, counterexample: for the normalized identifier `K241380` the
2-character bucket at index 1–2 is `24`, not `41`, and the derived path is
`pdf24/K241380.pdf`, not `pdf41/K241380.pdf`. -/
theorem claim3_counterexample :
    yearOf "K241380".toList ≠ "41".toList ∧
    buildURL baseURL "K241380".toList ≠ urljoin baseURL "pdf41/K241380.pdf".toList := by
  refine ⟨by decide, by decide⟩

/-- C3 (amended): URL construction is a deterministic pure function of the
normalized identifier and the base location — the bucket is the 2-character
substring at index 1–2 and the full path is the bucket folder followed by
the identifier joined to the base; for normalized identifier `K241380` the
bucket is `24` and the path is `pdf24/K241380.pdf` joined to the base. -/
theorem claim3_url_construction (base k : List Char) :
    buildURL base k =
      urljoin base ("pdf".toList ++ yearOf k ++ "/".toList ++ k ++ ".pdf".toList) ∧
    yearOf "K241380".toList = "24".toList ∧
    buildURL base "K241380".toList = urljoin base "pdf24/K241380.pdf".toList := by
  refine ⟨rfl, by decide, ?_⟩
  unfold buildURL
  rw [show relPath "K241380".toList = "pdf24/K241380.pdf".toList from by decide]

/-- C3, witness: the amended statement evaluated at the fixed base URL. -/
theorem claim3_witness :
    buildURL baseURL "K241380".toList = urljoin baseURL "pdf24/K241380.pdf".toList :=
  (claim3_url_construction baseURL "K241380".toList).2.2

/-- C4: whenever `download_fda_pdfs` returns a report for a list of N
identifiers, the report has exactly one entry per dispatched identifier,
partitioned by tag: the `successful` entries are exactly the `Success`
outcomes and the `failed` entries exactly the `Failure` outcomes of the
invocations (in particular every outcome lands in its collection), and the
entry counts add up to N. -/
theorem claim4_partition (w : Nat → FetchEvent) (ks : List (List Char))
    (outdir : List Char) (fs0 : List (List Char)) (r : Report)
    (h : (download_fda_pdfs w ks outdir fs0).1 = Except.ok r) :
    r.successful = successesIn ((runFetches w baseURL outdir 0 ks).map Prod.fst) ∧
    r.failed = failuresIn ((runFetches w baseURL outdir 0 ks).map Prod.fst) ∧
    r.successful.length + r.failed.length = ks.length := by
  have h' : collectOutcomes ((runFetches w baseURL outdir 0 ks).map Prod.fst) =
      Except.ok r := h
  obtain ⟨h1, h2, h3⟩ := collectOutcomes_ok _ _ h'
  refine ⟨h1, h2, ?_⟩
  rw [h3, List.length_map, runFetches_length]

/-- C4, witness: a two-identifier batch with one success and one HTTP
failure yields a report with one entry in each collection. -/
theorem claim4_witness :
    rMixed.successful =
      successesIn ((runFetches wMixed baseURL "fda_pdfs".toList 0
        ["K241380".toList, "badid".toList]).map Prod.fst) ∧
    rMixed.failed =
      failuresIn ((runFetches wMixed baseURL "fda_pdfs".toList 0
        ["K241380".toList, "badid".toList]).map Prod.fst) ∧
    rMixed.successful.length + rMixed.failed.length =
      (["K241380".toList, "badid".toList]).length :=
  claim4_partition wMixed ["K241380".toList, "badid".toList] "fda_pdfs".toList []
    rMixed rfl

/-- C5: on the empty identifier list, `download_fda_pdfs` returns a report
with zero successes and zero failures, the only filesystem effect is the
directory creation, and no network request is made. -/
theorem claim5_empty_batch (w : Nat → FetchEvent) (outdir : List Char)
    (fs0 : List (List Char)) :
    download_fda_pdfs w [] outdir fs0 =
      (Except.ok ⟨[], []⟩, makedirs fs0 outdir, []) := rfl

/-- C6: every occurrence in the batch — duplicates included — is dispatched
as its own invocation with its own event (invocation `i` consumes event
`w i` of identifier at position `i`), and whenever a report is returned it
contains exactly one outcome per input: N inputs produce N entries. -/
theorem claim6_duplicates_independent (w : Nat → FetchEvent)
    (ks : List (List Char)) (outdir : List Char) (fs0 : List (List Char))
    (r : Report)
    (h : (download_fda_pdfs w ks outdir fs0).1 = Except.ok r) :
    runFetches w baseURL outdir 0 ks =
      (ks.enumFrom 0).map (fun p => download_pdf (w p.1) p.2 baseURL outdir) ∧
    r.successful.length + r.failed.length = ks.length := by
  have h' : collectOutcomes ((runFetches w baseURL outdir 0 ks).map Prod.fst) =
      Except.ok r := h
  obtain ⟨-, -, h3⟩ := collectOutcomes_ok _ _ h'
  refine ⟨runFetches_eq_enumFrom w baseURL outdir 0 ks, ?_⟩
  rw [h3, List.length_map, runFetches_length]

/-- C6, witness: the same identifier twice produces two independent
outcomes — here one success and one timeout failure, so two entries. -/
theorem claim6_witness :
    runFetches wDup baseURL "fda_pdfs".toList 0 ["K241380".toList, "K241380".toList] =
      ((["K241380".toList, "K241380".toList]).enumFrom 0).map
        (fun p => download_pdf (wDup p.1) p.2 baseURL "fda_pdfs".toList) ∧
    rDup.successful.length + rDup.failed.length =
      (["K241380".toList, "K241380".toList]).length :=
  claim6_duplicates_independent wDup ["K241380".toList, "K241380".toList]
    "fda_pdfs".toList [] rDup rfl

/-- C7, counterexample: the report does not reflect completion order.  With
two all-successful fetches and the completion schedule in which invocation 1
finishes before invocation 0 (a permutation of the submission indices), the
code still lists the successes in submission order, which differs from the
completion-order listing. -/
theorem claim7_counterexample :
    [1, 0].Perm (List.range 2) ∧
    (download_fda_pdfs wAllOk ksPair "fda_pdfs".toList []).1 =
      Except.ok ⟨[("K111111".toList, "fda_pdfs/K111111.pdf".toList),
                  ("K222222".toList, "fda_pdfs/K222222.pdf".toList)], []⟩ ∧
    successesIn (completionOrderList [1, 0]
        ((runFetches wAllOk baseURL "fda_pdfs".toList 0 ksPair).map Prod.fst)) =
      [("K222222".toList, "fda_pdfs/K222222.pdf".toList),
       ("K111111".toList, "fda_pdfs/K111111.pdf".toList)] ∧
    ([("K111111".toList, "fda_pdfs/K111111.pdf".toList),
      ("K222222".toList, "fda_pdfs/K222222.pdf".toList)] :
        List (List Char × List Char)) ≠
      [("K222222".toList, "fda_pdfs/K222222.pdf".toList),
       ("K111111".toList, "fda_pdfs/K111111.pdf".toList)] :=
  ⟨by decide, rfl, rfl, by decide⟩

/-- C7 (amended): the order of entries in `successes` and `failures`
reflects the submission order of the identifiers — the coordinator drains
the futures in dict insertion order, so each collection lists its outcomes
in the order the identifiers were submitted, independent of the completion
order under the worker pool. -/
theorem claim7_submission_order (w : Nat → FetchEvent) (ks : List (List Char))
    (outdir : List Char) (fs0 : List (List Char)) (r : Report)
    (h : (download_fda_pdfs w ks outdir fs0).1 = Except.ok r) :
    r.successful = successesIn ((runFetches w baseURL outdir 0 ks).map Prod.fst) ∧
    r.failed = failuresIn ((runFetches w baseURL outdir 0 ks).map Prod.fst) := by
  have h' : collectOutcomes ((runFetches w baseURL outdir 0 ks).map Prod.fst) =
      Except.ok r := h
  obtain ⟨h1, h2, -⟩ := collectOutcomes_ok _ _ h'
  exact ⟨h1, h2⟩

/-- C7, witness: the submission-order characterization evaluated on the
all-successful two-identifier batch. -/
theorem claim7_witness :
    (⟨[("K111111".toList, "fda_pdfs/K111111.pdf".toList),
       ("K222222".toList, "fda_pdfs/K222222.pdf".toList)], []⟩ : Report).successful =
      successesIn ((runFetches wAllOk baseURL "fda_pdfs".toList 0 ksPair).map Prod.fst) ∧
    (⟨[("K111111".toList, "fda_pdfs/K111111.pdf".toList),
       ("K222222".toList, "fda_pdfs/K222222.pdf".toList)], []⟩ : Report).failed =
      failuresIn ((runFetches wAllOk baseURL "fda_pdfs".toList 0 ksPair).map Prod.fst) :=
  claim7_submission_order wAllOk ksPair "fda_pdfs".toList []
    ⟨[("K111111".toList, "fda_pdfs/K111111.pdf".toList),
      ("K222222".toList, "fda_pdfs/K222222.pdf".toList)], []⟩ rfl

/-- C8: `download_fda_pdfs` creates the output directory (and its missing
parents) before dispatching any fetch, the creation is idempotent, and the
directory exists after the call no matter what the fetch events were — in
particular even when every fetch fails. -/
theorem claim8_output_dir (w : Nat → FetchEvent) (ks : List (List Char))
    (outdir : List Char) (fs0 : List (List Char)) :
    (download_fda_pdfs w ks outdir fs0).2.1 = makedirs fs0 outdir ∧
    outdir ∈ (download_fda_pdfs w ks outdir fs0).2.1 ∧
    (∀ d ∈ ancestors outdir, d ∈ (download_fda_pdfs w ks outdir fs0).2.1) ∧
    makedirs (makedirs fs0 outdir) outdir = makedirs fs0 outdir :=
  ⟨rfl, mem_makedirs_self fs0 outdir,
    fun _ hd => mem_makedirs_of_mem_ancestors hd, makedirs_idem fs0 outdir⟩

/-- C8, witness: after a batch in which every fetch times out, the output
directory is among the directories that exist. -/
theorem claim8_witness :
    "fda_pdfs".toList ∈
      (download_fda_pdfs (fun _ => ⟨NetEvent.netError "timeout".toList, FsEvent.ok⟩)
        ksPair "fda_pdfs".toList []).2.1 :=
  (claim8_output_dir (fun _ => ⟨NetEvent.netError "timeout".toList, FsEvent.ok⟩)
    ksPair "fda_pdfs".toList []).2.1

/-- C9: identifier normalization is idempotent — normalizing an already
normalized identifier changes nothing. -/
theorem claim9_idempotent (s : List Char) :
    normalizeK (normalizeK s) = normalizeK s :=
  normalizeK_idem s

/-- C9, witness: idempotence evaluated on a lowercase padded identifier. -/
theorem claim9_witness :
    normalizeK (normalizeK " k241380 ".toList) = normalizeK " k241380 ".toList :=
  claim9_idempotent " k241380 ".toList

/-- C10: a whitespace-only (or empty) identifier does not make the Fetcher
error during normalization or URL construction: it normalizes to the single
letter `K`, the 2-character bucket extraction totally returns the empty
string, and the derived URL is `pdf/K.pdf` joined to the base location. -/
theorem claim10_degenerate_identifier (s base : List Char)
    (h : ∀ c ∈ s, c.isWhitespace = true) :
    normalizeK s = ['K'] ∧ yearOf (normalizeK s) = [] ∧
    buildURL base (normalizeK s) = urljoin base "pdf/K.pdf".toList := by
  have hn := normalizeK_all_ws h
  refine ⟨hn, ?_, ?_⟩
  · rw [hn]
    rfl
  · rw [hn]
    unfold buildURL
    rw [show relPath ['K'] = "pdf/K.pdf".toList from by decide]

/-- C10, witness: the two-space identifier evaluated at the fixed base. -/
theorem claim10_witness :
    normalizeK "  ".toList = ['K'] ∧ yearOf (normalizeK "  ".toList) = [] ∧
    buildURL baseURL (normalizeK "  ".toList) = urljoin baseURL "pdf/K.pdf".toList :=
  claim10_degenerate_identifier "  ".toList baseURL (by decide)
